import Mathlib

/- Verification of the real-time collaboration subsystem of the Video Room
Calculator (the bundled provider in the collaboration bundle and the module
provider: YjsProvider, SyncIntegration, VRCSync facade).

Shallow embedding conventions:
- JSON-serializable JavaScript values are the inductive type Json (numbers as
  Int; the claims never perform arithmetic on payload values).
- JavaScript object own-property tables and Map instances are insertion-ordered
  association lists with upsert semantics (assignment to an existing key keeps
  its slot, a new key is appended), matching property/iteration order.
- Wire frames are the structured Frame type.  The codec writes one tag byte
  followed by UTF-8 JSON payload bytes and is exact-byte round-trippable, so a
  frame is identified with its decoded payload value.
- The callback-driven mutable module state is threaded explicitly; effects of
  registered observers (the one installed by observeChanges on yRoomData and
  yItems) are part of the returned frame list. -/

namespace VRC

mutual
/-- Json is a JSON-serializable JavaScript value. -/
inductive Json : Type where
  | null : Json
  | bool : Bool → Json
  | num : Int → Json
  | str : String → Json
  | arr : JList → Json
  | obj : JFields → Json
deriving DecidableEq

/-- JList is a list of Json values (spelled out so equality is derivable). -/
inductive JList : Type where
  | nil : JList
  | cons : Json → JList → JList
deriving DecidableEq

/-- JFields is an ordered field list of a JSON object. -/
inductive JFields : Type where
  | nil : JFields
  | cons : String → Json → JFields → JFields
deriving DecidableEq
end

/-- toJFields converts an association list into JSON object fields. -/
def toJFields : List (String × Json) → JFields
  | [] => .nil
  | (k, v) :: rest => .cons k v (toJFields rest)

/-- fromJFields converts JSON object fields back to an association list. -/
def fromJFields : JFields → List (String × Json)
  | .nil => []
  | .cons k v rest => (k, v) :: fromJFields rest

theorem fromJFields_toJFields (l : List (String × Json)) :
    fromJFields (toJFields l) = l := by
  induction l with
  | nil => rfl
  | cons h t ih => simp [toJFields, fromJFields, ih]

/-- upsert models JS property assignment obj[k] = v and Map.prototype.set:
an existing key keeps its insertion slot, a new key is appended. -/
def upsert {α : Type} (m : List (String × α)) (k : String) (v : α) :
    List (String × α) :=
  if m.any (fun p => p.1 == k) then
    m.map (fun p => if p.1 == k then (k, v) else p)
  else m ++ [(k, v)]

/-- lookupKey models JS property read obj[k] / Map.prototype.get. -/
def lookupKey {α : Type} (m : List (String × α)) (k : String) : Option α :=
  (m.find? (fun p => p.1 == k)).map Prod.snd

/-- hasKey models the JS "k in obj" / Map.prototype.has check. -/
def hasKey {α : Type} (m : List (String × α)) (k : String) : Bool :=
  m.any (fun p => p.1 == k)

/-- YMapData is the data table of one YMap. -/
abbrev YMapData := List (String × Json)

/-- YDocM models YDoc.data: the named YMap collection (roomData, items, meta). -/
structure YDocM where
  maps : List (String × YMapData)
deriving DecidableEq

/-- UserInfo is the user record inside an awareness state. -/
structure UserInfo where
  id : String
  name : String
deriving DecidableEq

/-- AwState models one AwarenessState record as decoded from a frame's JSON
payload: the user field is optional because arbitrary JSON need not carry it. -/
structure AwState where
  user : Option UserInfo
  cursor : Option Json
  selection : List Json
  dragging : Option Json
deriving DecidableEq

/-- Frame is a decoded wire frame: tag byte 0 to 4 plus payload. -/
inductive Frame : Type where
  | syncRequest : Frame
  | syncState : Json → Frame
  | update : Json → Frame
  | awarenessRequest : Frame
  | awarenessUpdate : AwState → Frame
deriving DecidableEq

/-- isAwarenessFrame recognizes type-4 (AwarenessUpdate) frames. -/
def isAwarenessFrame : Frame → Bool
  | Frame.awarenessUpdate _ => true
  | _ => false

/-- encodeStateAsUpdate models Y.encodeStateAsUpdate: JSON.stringify of the
object holding every YMap's toJSON, one field per named map, in doc.data
insertion order. -/
def encodeStateAsUpdate (d : YDocM) : Json :=
  Json.obj (toJFields (d.maps.map (fun p => (p.1, Json.obj (toJFields p.2)))))

/-- entriesOf models Object.entries of a parsed JSON value: the field list for
an object, and the empty list for the primitives the claims exercise. -/
def entriesOf : Json → List (String × Json)
  | Json.obj fs => fromJFields fs
  | _ => []

/-- observedMaps lists the maps observeChanges attaches its observer to
(yRoomData and yItems; yMeta is not observed). -/
def observedMaps : List String := ["roomData", "items"]

/-- observerFrames models the observer installed by observeChanges: on a change
to an observed map with transaction.local = true it sends one Update frame
holding the full encoded document via sendUpdate, which drops the frame unless
the socket readyState is OPEN; remote batches (local = false) send nothing.
The ydoc.on update listener in observeChanges never fires because nothing in
the provider ever emits the update event on YDoc. -/
def observerFrames (wsOpen : Bool) (mapName : String) (docAfter : YDocM)
    (tLocal : Bool) : List Frame :=
  if observedMaps.contains mapName && tLocal && wsOpen then
    [Frame.update (encodeStateAsUpdate docAfter)]
  else []

/-- docEnsureMap models YDoc.getMap: create the named map if absent. -/
def docEnsureMap (d : YDocM) (name : String) : YDocM :=
  if hasKey d.maps name then d else ⟨d.maps ++ [(name, [])]⟩

/-- docSetInMap writes one key of one named map (map.data[k] = v after getMap,
or YMap.set's data write) and leaves every other map untouched. -/
def docSetInMap (d : YDocM) (name k : String) (v : Json) : YDocM :=
  let d2 := docEnsureMap d name
  ⟨d2.maps.map (fun p => if p.1 == name then (p.1, upsert p.2 k v) else p)⟩

/-- applyMapEntries is the inner loop of Y.applyUpdate: write each parsed entry
of one named map, notifying that map's observers once per entry with the given
transaction-local flag. -/
def applyMapEntries (wsOpen : Bool) (tLocal : Bool) (mapName : String)
    (es : List (String × Json)) (acc : YDocM × List Frame) :
    YDocM × List Frame :=
  es.foldl (fun a e =>
    let d2 := docSetInMap a.1 mapName e.1 e.2
    (d2, a.2 ++ observerFrames wsOpen mapName d2 tLocal)) acc

/-- yApplyUpdate models Y.applyUpdate of the bundled provider: parse the
payload, then for each named map getMap and write each entry directly into
map.data, notifying observers with transaction (local := false, origin).
Returns the new document and the outbound frames the observers produced. -/
def yApplyUpdate (wsOpen : Bool) (d : YDocM) (payload : Json) :
    YDocM × List Frame :=
  (entriesOf payload).foldl (fun a me =>
    applyMapEntries wsOpen false me.1 (entriesOf me.2)
      (docEnsureMap a.1 me.1, a.2)) (d, [])

/-- yApplyUpdateShim models Y.applyUpdate of the module fallback shim
(window.Y in the module provider): identical parsing, but each entry is
written through the shim's YMap.set, whose notifyObservers hardcodes
transaction (local := true). -/
def yApplyUpdateShim (wsOpen : Bool) (d : YDocM) (payload : Json) :
    YDocM × List Frame :=
  (entriesOf payload).foldl (fun a me =>
    applyMapEntries wsOpen true me.1 (entriesOf me.2)
      (docEnsureMap a.1 me.1, a.2)) (d, [])

theorem applyMapEntries_local_false_frames (wsOpen : Bool) (mapName : String)
    (es : List (String × Json)) :
    ∀ (d : YDocM) (fs : List Frame),
      (applyMapEntries wsOpen false mapName es (d, fs)).2 = fs := by
  induction es with
  | nil => intro d fs; rfl
  | cons e t ih =>
      intro d fs
      have h : applyMapEntries wsOpen false mapName (e :: t) (d, fs) =
          applyMapEntries wsOpen false mapName t
            (docSetInMap d mapName e.1 e.2, fs) := by
        simp [applyMapEntries, observerFrames]
      rw [h]
      exact ih (docSetInMap d mapName e.1 e.2) fs

theorem yApplyUpdate_frames_nil (wsOpen : Bool) (d : YDocM) (payload : Json) :
    (yApplyUpdate wsOpen d payload).2 = [] := by
  unfold yApplyUpdate
  generalize entriesOf payload = ms
  suffices h : ∀ (d0 : YDocM) (fs : List Frame),
      (ms.foldl (fun a me =>
        applyMapEntries wsOpen false me.1 (entriesOf me.2)
          (docEnsureMap a.1 me.1, a.2)) (d0, fs)).2 = fs from h d []
  induction ms with
  | nil => intro d0 fs; rfl
  | cons me t ih =>
      intro d0 fs
      rw [List.foldl_cons]
      have hstep : (applyMapEntries wsOpen false me.1 (entriesOf me.2)
          (docEnsureMap d0 me.1, fs)) =
          ((applyMapEntries wsOpen false me.1 (entriesOf me.2)
            (docEnsureMap d0 me.1, fs)).1, fs) := by
        have h2 := applyMapEntries_local_false_frames wsOpen me.1
          (entriesOf me.2) (docEnsureMap d0 me.1) fs
        exact Prod.ext rfl h2
      rw [hstep]
      exact ih _ fs

/-- c1Payload is the concrete remote Update payload of the C1 failing input. -/
def c1Payload : Json :=
  Json.obj (toJFields
    [("roomData", Json.obj (toJFields [("name", Json.str "x")]))])

/-- initDoc is a freshly initialized document (the three named maps, empty). -/
def initDoc : YDocM := ⟨[("roomData", []), ("items", []), ("meta", [])]⟩

/-- Claim C1 (echo prevention), evaluated at the failing input: in the
bundled provider, applying the remote Update payload produces no outbound
Update frame — the observers see transaction.local = false, and by
yApplyUpdate_frames_nil this holds for every document, payload and socket
state.  In the module provider's window.Y fallback shim, however, the same
remote payload applied to the same freshly initialized document with the
socket open does produce an outbound Update frame, because the shim routes
the write through YMap.set, whose notifyObservers hardcodes local := true:
the shim echoes remote updates, contradicting the echo-prevention
requirement the bundled provider satisfies. -/
theorem echo_prevention_divergence :
    (yApplyUpdate true initDoc c1Payload).2 = [] ∧
    (yApplyUpdateShim true initDoc c1Payload).2 ≠ [] :=
  ⟨yApplyUpdate_frames_nil true initDoc c1Payload, by decide⟩

/-- AwarenessM models the awareness record of the provider: the local state
plus the peer Map keyed by user id. -/
structure AwarenessM where
  localState : AwState
  states : List (String × AwState)
deriving DecidableEq

/-- UserEntry is one element of the getConnectedUsers result: the spread of an
awareness state plus the isLocal flag added there. -/
structure UserEntry where
  state : AwState
  isLocal : Bool
deriving DecidableEq

/-- getConnectedUsers models the provider function: the empty array when
awareness is null (before initialization and after disconnect), otherwise the
local state flagged isLocal := true followed by every peer state in Map
insertion order, flagged isLocal := false.  The function is total: it never
throws. -/
def getConnectedUsers : Option AwarenessM → List UserEntry
  | none => []
  | some a => ⟨a.localState, true⟩ :: a.states.map (fun p => ⟨p.2, false⟩)

/-- handleAwarenessUpdate models the type-4 frame handler: the payload bytes
are JSON-parsed inside a try/catch (none models a parse failure, which the
catch swallows, leaving the table untouched); a record is stored only when it
carries a user whose id differs from the local user's id, in which case it is
upserted under that id and the awareness listeners are notified (the returned
flag); a record with the local id, or with no user field, is ignored. -/
def handleAwarenessUpdate (localId : String) (tbl : List (String × AwState))
    (payload : Option AwState) : List (String × AwState) × Bool :=
  match payload with
  | none => (tbl, false)
  | some data =>
    match data.user with
    | none => (tbl, false)
    | some u =>
      if u.id = localId then (tbl, false) else (upsert tbl u.id data, true)

/-- processAwFrames folds a sequence of received AwarenessUpdate payloads
through handleAwarenessUpdate, the way consecutive onmessage callbacks do. -/
def processAwFrames (localId : String) (tbl : List (String × AwState))
    (frames : List (Option AwState)) : List (String × AwState) :=
  frames.foldl (fun t f => (handleAwarenessUpdate localId t f).1) tbl

theorem hasKey_upsert_of_hasKey {α : Type} (m : List (String × α))
    (k0 k : String) (v : α) (h : hasKey m k = true) :
    hasKey (upsert m k0 v) k = true := by
  simp only [hasKey, List.any_eq_true, beq_iff_eq] at h
  obtain ⟨p, hp, hk⟩ := h
  unfold upsert
  split
  · simp only [hasKey, List.any_map, List.any_eq_true, Function.comp]
    refine ⟨p, hp, ?_⟩
    by_cases hc : p.1 = k0
    · have hk0 : k0 = k := by rw [← hc, hk]
      simp [hc, hk0]
    · have hkc : ¬(k = k0) := fun he => hc (hk.trans he)
      simp [hc, hk, hkc]
  · simp only [hasKey, List.any_eq_true, beq_iff_eq]
    exact ⟨p, List.mem_append_left _ hp, hk⟩

theorem hasKey_upsert_of_ne {α : Type} (m : List (String × α))
    (k0 k : String) (v : α) (hne : k0 ≠ k) (h : hasKey m k = false) :
    hasKey (upsert m k0 v) k = false := by
  simp only [hasKey, List.any_eq_false, beq_iff_eq] at h
  unfold upsert
  split
  · simp only [hasKey, List.any_map, List.any_eq_false, Function.comp]
    intro p hp
    by_cases hc : p.1 = k0
    · simp [hc, hne]
    · simp [hc]
      exact h p hp
  · simp only [hasKey, List.any_eq_false, beq_iff_eq]
    intro p hp
    rcases List.mem_append.mp hp with hl | hr
    · exact h p hl
    · rcases List.mem_singleton.mp hr with rfl
      exact hne

theorem handleAwarenessUpdate_preserves_key (localId k : String)
    (tbl : List (String × AwState)) (payload : Option AwState)
    (h : hasKey tbl k = true) :
    hasKey (handleAwarenessUpdate localId tbl payload).1 k = true := by
  cases payload with
  | none => simpa [handleAwarenessUpdate] using h
  | some data =>
    cases hu : data.user with
    | none => simpa [handleAwarenessUpdate, hu] using h
    | some u =>
      by_cases hc : u.id = localId
      · simpa [handleAwarenessUpdate, hu, hc] using h
      · simp only [handleAwarenessUpdate, hu, hc, if_false]
        exact hasKey_upsert_of_hasKey tbl u.id k data h

theorem handleAwarenessUpdate_no_self (localId : String)
    (tbl : List (String × AwState)) (payload : Option AwState)
    (h : hasKey tbl localId = false) :
    hasKey (handleAwarenessUpdate localId tbl payload).1 localId = false := by
  cases payload with
  | none => simpa [handleAwarenessUpdate] using h
  | some data =>
    cases hu : data.user with
    | none => simpa [handleAwarenessUpdate, hu] using h
    | some u =>
      by_cases hc : u.id = localId
      · simpa [handleAwarenessUpdate, hu, hc] using h
      · simp only [handleAwarenessUpdate, hu, hc, if_false]
        exact hasKey_upsert_of_ne tbl u.id localId data hc h

theorem processAwFrames_preserves_key (localId k : String)
    (frames : List (Option AwState)) :
    ∀ (tbl : List (String × AwState)), hasKey tbl k = true →
      hasKey (processAwFrames localId tbl frames) k = true := by
  induction frames with
  | nil => intro tbl h; exact h
  | cons f t ih =>
      intro tbl h
      show hasKey (processAwFrames localId
        (handleAwarenessUpdate localId tbl f).1 t) k = true
      exact ih _ (handleAwarenessUpdate_preserves_key localId k tbl f h)

theorem processAwFrames_no_self (localId : String)
    (frames : List (Option AwState)) :
    ∀ (tbl : List (String × AwState)), hasKey tbl localId = false →
      hasKey (processAwFrames localId tbl frames) localId = false := by
  induction frames with
  | nil => intro tbl h; exact h
  | cons f t ih =>
      intro tbl h
      show hasKey (processAwFrames localId
        (handleAwarenessUpdate localId tbl f).1 t) localId = false
      exact ih _ (handleAwarenessUpdate_no_self localId tbl f h)

/-- c3LocalState is the local user's awareness record in the C3 scenario. -/
def c3LocalState : AwState := ⟨some ⟨"L", "Local"⟩, none, [], none⟩

/-- c3A is peer A's broadcast record in the C3 scenario. -/
def c3A : AwState := ⟨some ⟨"A", "Alice"⟩, none, [], none⟩

/-- c3B is peer B's broadcast record in the C3 scenario. -/
def c3B : AwState := ⟨some ⟨"B", "Bob"⟩, none, [], none⟩

/-- c3Table is the peer table after a broadcast round with peers A and B
followed by a refresh round in which only A broadcasts. -/
def c3Table : List (String × AwState) :=
  processAwFrames "L" [] [some c3A, some c3B, some c3A]

/-- Claim C3, counterexample: after peers A and B broadcast and a subsequent
refresh carries only A, getConnectedUsers still lists B — the handler only
upserts and nothing in the code ever removes a peer entry, so the claimed
pruning does not happen. -/
theorem presence_pruning_cex :
    UserEntry.mk c3B false ∈
      getConnectedUsers (some ⟨c3LocalState, c3Table⟩) := by decide

/-- Claim C3 as amended: peer presence entries are never pruned — any key
present in the peer table is still present after any further sequence of
awareness broadcasts (so B stays listed after a refresh carrying only A) —
and on an active session the local user's entry is always the first element
of getConnectedUsers and is flagged isLocal = true. -/
theorem presence_no_pruning_local_first :
    (∀ (aw : AwarenessM),
      (getConnectedUsers (some aw)).head? = some ⟨aw.localState, true⟩) ∧
    (∀ (localId k : String) (tbl : List (String × AwState))
        (frames : List (Option AwState)),
      hasKey tbl k = true →
      hasKey (processAwFrames localId tbl frames) k = true) := by
  constructor
  · intro aw; rfl
  · intro localId k tbl frames h
    exact processAwFrames_preserves_key localId k frames tbl h

/-- Witness for presence_no_pruning_local_first at the concrete C3 scenario:
B's entry survives the refresh round that carries only A. -/
theorem presence_no_pruning_local_first_witness :
    (getConnectedUsers (some ⟨c3LocalState, c3Table⟩)).head? =
      some ⟨c3LocalState, true⟩ ∧
    (hasKey [("B", c3B)] "B" = true ∧
      hasKey (processAwFrames "L" [("B", c3B)] [some c3A]) "B" = true) :=
  ⟨presence_no_pruning_local_first.1 _,
    by decide,
    presence_no_pruning_local_first.2 "L" "B" [("B", c3B)] [some c3A]
      (by decide)⟩

/-- Claim C9: the AwarenessUpdate handling contract.  A frame whose payload
fails to JSON-parse is dropped without throwing and without changing the peer
table; a frame embedding the local user's id (or no user at all) is ignored;
any other frame is upserted under its user id and the listeners are notified;
and the local user's id never appears as a key of the peer table, across any
sequence of received frames. -/
theorem awareness_update_contract :
    (∀ (localId : String) (tbl : List (String × AwState)),
      handleAwarenessUpdate localId tbl none = (tbl, false)) ∧
    (∀ (localId : String) (tbl : List (String × AwState)) (data : AwState)
        (u : UserInfo), data.user = some u → u.id = localId →
      handleAwarenessUpdate localId tbl (some data) = (tbl, false)) ∧
    (∀ (localId : String) (tbl : List (String × AwState)) (data : AwState)
        (u : UserInfo), data.user = some u → u.id ≠ localId →
      handleAwarenessUpdate localId tbl (some data) =
        (upsert tbl u.id data, true)) ∧
    (∀ (localId : String) (tbl : List (String × AwState))
        (frames : List (Option AwState)),
      hasKey tbl localId = false →
      hasKey (processAwFrames localId tbl frames) localId = false) := by
  refine ⟨fun localId tbl => rfl, ?_, ?_, ?_⟩
  · intro localId tbl data u hu hid
    simp [handleAwarenessUpdate, hu, hid]
  · intro localId tbl data u hu hid
    simp [handleAwarenessUpdate, hu, hid]
  · intro localId tbl frames h
    exact processAwFrames_no_self localId frames tbl h

/-- Witness for awareness_update_contract at concrete inputs: a parse failure
is dropped, a self frame is ignored, a peer frame is upserted with listener
notification, and the local id stays out of the table. -/
theorem awareness_update_contract_witness :
    (handleAwarenessUpdate "L" [] none = ([], false)) ∧
    (c3LocalState.user = some ⟨"L", "Local"⟩ ∧
      handleAwarenessUpdate "L" [] (some c3LocalState) = ([], false)) ∧
    (c3B.user = some ⟨"B", "Bob"⟩ ∧
      handleAwarenessUpdate "L" [] (some c3B) =
        (upsert [] "B" c3B, true)) ∧
    (hasKey ([] : List (String × AwState)) "L" = false ∧
      hasKey (processAwFrames "L" [] [some c3B, none, some c3A]) "L" =
        false) :=
  ⟨awareness_update_contract.1 "L" [],
    ⟨by decide, awareness_update_contract.2.1 "L" [] c3LocalState
      ⟨"L", "Local"⟩ (by decide) rfl⟩,
    ⟨by decide, awareness_update_contract.2.2.1 "L" [] c3B ⟨"B", "Bob"⟩
      (by decide) (by decide)⟩,
    ⟨by decide, awareness_update_contract.2.2.2 "L" []
      [some c3B, none, some c3A] (by decide)⟩⟩

/-- syncIntegrationGetConnectedUsers models SyncIntegration.getConnectedUsers,
which delegates to the provider. -/
def syncIntegrationGetConnectedUsers (aw : Option AwarenessM) :
    List UserEntry :=
  getConnectedUsers aw

/-- vrcSyncGetUsers models VRCSync.getUsers, which delegates through
SyncIntegration to the provider. -/
def vrcSyncGetUsers (aw : Option AwarenessM) : List UserEntry :=
  syncIntegrationGetConnectedUsers aw

/-- Claim C10: when the awareness channel is not initialized (awareness is
null, as before the first enable and after disable), getUsers and
getConnectedUsers return the empty array — they are total functions, so they
never throw — and in particular no entry, local or otherwise, is listed. -/
theorem getUsers_uninitialized (aw : Option AwarenessM) (h : aw = none) :
    vrcSyncGetUsers aw = [] ∧ syncIntegrationGetConnectedUsers aw = [] ∧
      getConnectedUsers aw = [] := by
  subst h
  exact ⟨rfl, rfl, rfl⟩

/-- Witness for getUsers_uninitialized at the concrete uninitialized state. -/
theorem getUsers_uninitialized_witness :
    (none : Option AwarenessM) = none ∧
      vrcSyncGetUsers none = [] ∧ syncIntegrationGetConnectedUsers none = [] ∧
      getConnectedUsers none = [] :=
  ⟨rfl, getUsers_uninitialized none rfl⟩

/-- ConnStatus is the ConnectionState enum of the transport. -/
inductive ConnStatus : Type where
  | disconnected : ConnStatus
  | connecting : ConnStatus
  | connected : ConnStatus
deriving DecidableEq

/-- RECONNECT_INTERVAL is the provider's base reconnect interval (ms). -/
def RECONNECT_INTERVAL : Nat := 3000

/-- MAX_RECONNECT_ATTEMPTS is the provider's reconnect attempt budget. -/
def MAX_RECONNECT_ATTEMPTS : Nat := 10

/-- AppState models the module-level mutable state relevant to the connection
life cycle: the facade enabled flag, the sync integration debounce timer, and
the provider's socket, timer, attempt and status state.  pendingCloseEvent
records that a close event for a socket closed by disconnect is queued on the
event loop: the handlers registered on that WebSocket object stay attached
and still run when the event is delivered, even though the module variable
holding the socket was already nulled. -/
structure AppState where
  isEnabled : Bool
  syncEnabled : Bool
  localChangeTimer : Bool
  reconnectTimer : Option Nat
  reconnectAttempts : Nat
  wsPresent : Bool
  ydocPresent : Bool
  awareness : Option AwarenessM
  connectionStatus : ConnStatus
  pendingCloseEvent : Bool
deriving DecidableEq

/-- scheduleReconnect models the provider function: clear any pending timer;
if the attempt budget is exhausted, return with no timer scheduled and the
status untouched; otherwise increment the counter, set status connecting,
and schedule a timer with delay RECONNECT_INTERVAL * min(attempts, 5). -/
def scheduleReconnect (s : AppState) : AppState :=
  let s1 : AppState := { s with reconnectTimer := none }
  if MAX_RECONNECT_ATTEMPTS ≤ s1.reconnectAttempts then s1
  else
    { s1 with
      reconnectAttempts := s1.reconnectAttempts + 1,
      connectionStatus := ConnStatus.connecting,
      reconnectTimer :=
        some (RECONNECT_INTERVAL * min (s1.reconnectAttempts + 1) 5) }

/-- sendSyncStep1 models the provider function: a single type-0 frame when
the socket is OPEN, nothing otherwise. -/
def sendSyncStep1 (wsOpen : Bool) : List Frame :=
  if wsOpen then [Frame.syncRequest] else []

/-- wsOnOpen models the socket onopen handler: status connected, attempt
counter reset to 0, notify listeners, then sendSyncStep1 on the now-open
socket.  Nothing else is sent. -/
def wsOnOpen (s : AppState) : AppState × List Frame :=
  ({ s with connectionStatus := ConnStatus.connected, reconnectAttempts := 0 },
    sendSyncStep1 true)

/-- wsOnClose models the socket onclose handler: status disconnected, notify
listeners, then scheduleReconnect. -/
def wsOnClose (s : AppState) : AppState :=
  scheduleReconnect { s with connectionStatus := ConnStatus.disconnected }

/-- afterNFailures iterates n consecutive connection failures, each failure
delivering one close event to the handler. -/
def afterNFailures : Nat → AppState → AppState
  | 0, s => s
  | n + 1, s => afterNFailures n (wsOnClose s)

/-- sendAwarenessUpdate models the provider function: one type-4 frame
holding the local awareness state, sent only when the socket is OPEN and
awareness exists; otherwise nothing is sent. -/
def sendAwarenessUpdate (wsOpen : Bool) (aw : Option AwarenessM) :
    List Frame :=
  match aw with
  | none => []
  | some a => if wsOpen then [Frame.awarenessUpdate a.localState] else []

/-- setupAwareness models the provider function: build the initial local
state (empty peer table) and immediately call sendAwarenessUpdate; during
initYjs the socket is still CONNECTING, so that initial send is dropped by
the readyState guard in sendAwarenessUpdate. -/
def setupAwareness (localUser : UserInfo) (wsOpen : Bool) :
    AwarenessM × List Frame :=
  let aw : AwarenessM := ⟨⟨some localUser, none, [], none⟩, []⟩
  (aw, sendAwarenessUpdate wsOpen (some aw))

/-- disconnect models the provider cleanup: clear the reconnect timer; close
and drop the socket (the close event for it is queued and its handlers stay
registered); destroy the document; null the shared types and awareness; set
status disconnected and reset the attempt counter. -/
def disconnect (s : AppState) : AppState :=
  let s1 : AppState := { s with reconnectTimer := none }
  let s2 : AppState :=
    if s1.wsPresent then
      { s1 with wsPresent := false, pendingCloseEvent := true }
    else s1
  { s2 with
    ydocPresent := false,
    awareness := none,
    connectionStatus := ConnStatus.disconnected,
    reconnectAttempts := 0 }

/-- stopSync models SyncIntegration.stopSync: clear the debounce timer, then
disconnect the provider, then reset the integration flag and callbacks. -/
def stopSync (s : AppState) : AppState :=
  let s1 : AppState := { s with localChangeTimer := false }
  { disconnect s1 with syncEnabled := false }

/-- vrcSyncDisable models VRCSync.disable: a no-op when not enabled,
otherwise stopSync, tear down the UI, and reset the facade state. -/
def vrcSyncDisable (s : AppState) : AppState :=
  if s.isEnabled then { stopSync s with isEnabled := false } else s

/-- deliverCloseEvent models the event loop delivering the queued close event
of a socket closed by disconnect: the onclose handler of that socket still
runs, setting status disconnected and calling scheduleReconnect with the
captured url. -/
def deliverCloseEvent (s : AppState) : AppState :=
  if s.pendingCloseEvent then
    wsOnClose { s with pendingCloseEvent := false }
  else s

/-- connInit is a freshly connected session with attempt counter 0. -/
def connInit : AppState :=
  ⟨true, true, false, none, 0, true, true,
    some ⟨⟨some ⟨"L", "Local"⟩, none, [], none⟩, []⟩,
    ConnStatus.connected, false⟩

/-- Claim C4: the backoff schedule.  With baseInterval 3000 and maxAttempts
10: (1) whenever the budget is not exhausted, scheduling reconnect attempt n
(the counter moving from n - 1 to n) sets a timer with delay
3000 * min(n, 5) and status connecting; (2) the attempt counter resets to 0
on every onopen; (3) with the budget exhausted, a further scheduleReconnect
sets no timer, leaves the counter alone and leaves the status untouched; and
(4) concretely, after 10 consecutive failures the counter is 10 and an 11th
failure schedules no timer and leaves the status disconnected. -/
theorem backoff_schedule :
    (∀ (s : AppState), s.reconnectAttempts < MAX_RECONNECT_ATTEMPTS →
      (scheduleReconnect s).reconnectTimer =
        some (RECONNECT_INTERVAL * min (s.reconnectAttempts + 1) 5) ∧
      (scheduleReconnect s).reconnectAttempts = s.reconnectAttempts + 1 ∧
      (scheduleReconnect s).connectionStatus = ConnStatus.connecting) ∧
    (∀ (s : AppState), (wsOnOpen s).1.reconnectAttempts = 0) ∧
    (∀ (s : AppState), MAX_RECONNECT_ATTEMPTS ≤ s.reconnectAttempts →
      (scheduleReconnect s).reconnectTimer = none ∧
      (scheduleReconnect s).reconnectAttempts = s.reconnectAttempts ∧
      (scheduleReconnect s).connectionStatus = s.connectionStatus) ∧
    ((afterNFailures 10 connInit).reconnectAttempts = 10 ∧
      (wsOnClose (afterNFailures 10 connInit)).reconnectTimer = none ∧
      (wsOnClose (afterNFailures 10 connInit)).connectionStatus =
        ConnStatus.disconnected) := by
  refine ⟨?_, fun s => rfl, ?_, by decide⟩
  · intro s h
    have hn : ¬ MAX_RECONNECT_ATTEMPTS ≤ s.reconnectAttempts :=
      Nat.not_le.mpr h
    refine ⟨?_, ?_, ?_⟩ <;> simp [scheduleReconnect, hn]
  · intro s h
    refine ⟨?_, ?_, ?_⟩ <;> simp [scheduleReconnect, h]

/-- Witness for backoff_schedule: attempt 1 is scheduled with delay 3000 ms,
attempt 6 with delay 15000 ms, and after 10 failures nothing is scheduled. -/
theorem backoff_schedule_witness :
    (connInit.reconnectAttempts < MAX_RECONNECT_ATTEMPTS ∧
      (scheduleReconnect connInit).reconnectTimer = some 3000) ∧
    ((afterNFailures 5 connInit).reconnectAttempts < MAX_RECONNECT_ATTEMPTS ∧
      (scheduleReconnect (afterNFailures 5 connInit)).reconnectTimer =
        some 15000) ∧
    (MAX_RECONNECT_ATTEMPTS ≤ (afterNFailures 10 connInit).reconnectAttempts ∧
      (scheduleReconnect (afterNFailures 10 connInit)).reconnectTimer =
        none) := by
  refine ⟨⟨by decide, ?_⟩, ⟨by decide, ?_⟩, by decide,
    (backoff_schedule.2.2.1 (afterNFailures 10 connInit) (by decide)).1⟩
  · have h := (backoff_schedule.1 connInit (by decide)).1
    simpa using h
  · have h :=
      (backoff_schedule.1 (afterNFailures 5 connInit) (by decide)).1
    have ha : (afterNFailures 5 connInit).reconnectAttempts = 5 := by decide
    rw [ha] at h
    simpa using h

/-- c5State is a concrete enabled session: connected, socket present, a
debounce timer pending and a reconnect timer pending. -/
def c5State : AppState :=
  ⟨true, true, true, some 3000, 2, true, true,
    some ⟨⟨some ⟨"L", "Local"⟩, none, [], none⟩,
      [("A", ⟨some ⟨"A", "Alice"⟩, none, [], none⟩)]⟩,
    ConnStatus.connected, false⟩

/-- Claim C5, divergence evaluation.  Disable does cancel the debounce timer,
cancel the reconnect timer, drop the socket, clear the in-memory state, and
it is idempotent — but closing the socket queues its close event, and when
the event loop delivers it the still-registered onclose handler runs
scheduleReconnect, which (the attempt counter having been reset to 0 by
disconnect) schedules a fresh 3000 ms reconnect timer and flips the status
to connecting: a new connection attempt is scheduled after disable has
returned, contradicting the claim that no further reconnect is ever
scheduled. -/
theorem disable_reconnect_after_close_divergence :
    (vrcSyncDisable c5State).localChangeTimer = false ∧
    (vrcSyncDisable c5State).reconnectTimer = none ∧
    (vrcSyncDisable c5State).wsPresent = false ∧
    (vrcSyncDisable c5State).awareness = none ∧
    (vrcSyncDisable c5State).connectionStatus = ConnStatus.disconnected ∧
    vrcSyncDisable (vrcSyncDisable c5State) = vrcSyncDisable c5State ∧
    (deliverCloseEvent (vrcSyncDisable c5State)).reconnectTimer =
      some 3000 ∧
    (deliverCloseEvent (vrcSyncDisable c5State)).connectionStatus =
      ConnStatus.connecting := by decide

/-- c6State is a concrete provider state at the moment onopen fires after a
reconnect: attempt counter positive, status connecting. -/
def c6State : AppState :=
  ⟨true, true, false, none, 3, true, true,
    some ⟨⟨some ⟨"L", "Local"⟩, none, [], none⟩, []⟩,
    ConnStatus.connecting, false⟩

/-- Claim C6, counterexample: at a concrete onopen event the handler sends no
AwarenessUpdate frame at all — the claimed flush of the local awareness state
on onopen does not happen in the code. -/
theorem onopen_no_awareness_flush_cex :
    ((wsOnOpen c6State).2.any isAwarenessFrame) = false := by decide

/-- Claim C6 as amended: on every onopen (initial connect and every
reconnect) the handler sets status connected, resets the attempt counter,
and sends exactly one frame — the single-byte SyncRequest; no AwarenessUpdate
frame is sent by the onopen handler.  The local awareness state is sent by
setupAwareness only when the socket is already open — during initYjs it is
still connecting, so that initial send is dropped — and otherwise only in
response to a type-3 AwarenessRequest or an explicit updateAwareness or
setLocalUser call. -/
theorem onopen_sends_only_syncrequest :
    (∀ (s : AppState),
      (wsOnOpen s).2 = [Frame.syncRequest] ∧
      (wsOnOpen s).2.any isAwarenessFrame = false ∧
      (wsOnOpen s).1.connectionStatus = ConnStatus.connected ∧
      (wsOnOpen s).1.reconnectAttempts = 0) ∧
    (∀ (u : UserInfo), (setupAwareness u false).2 = []) := by
  exact ⟨fun s => ⟨rfl, rfl, rfl, rfl⟩, fun u => rfl⟩

/-- jsTruthy models JavaScript truthiness of a JSON value. -/
def jsTruthy : Json → Bool
  | Json.null => false
  | Json.bool b => b
  | Json.num n => n != 0
  | Json.str s => s != ""
  | Json.arr _ => true
  | Json.obj _ => true

/-- truthyOpt keeps a field only when it is present and truthy, modeling the
if (roomObj.field) guards of createSyncableRoomObj. -/
def truthyOpt (o : Option Json) : Option Json :=
  o.bind (fun v => if jsTruthy v then some v else none)

/-- RoomObj models the host room object restricted to the fields the sync
integration reads; an absent JS property is none.  The items field is the
items object: category name to that category's serializable value. -/
structure RoomObj where
  roomId : Option Json
  name : Option Json
  version : Option Json
  unit : Option Json
  software : Option Json
  authorVersion : Option Json
  room : Option Json
  workspace : Option Json
  layersVisible : Option Json
  roomSurfaces : Option Json
  items : Option (List (String × Json))
deriving DecidableEq

/-- itemCategories is the fixed category list of createSyncableRoomObj. -/
def itemCategories : List String :=
  ["videoDevices", "chairs", "tables", "stageFloors", "boxes",
   "rooms", "displays", "speakers", "microphones", "touchPanels"]

/-- createSyncableRoomObj models the function: copy the six basic props when
not undefined; keep room, workspace, layersVisible, roomSurfaces when present
and truthy (shallow copy and JSON deep clone of immutable values are the
values themselves); rebuild items keeping only the known categories, in the
fixed category order, each present-and-truthy category deep-cloned. -/
def createSyncableRoomObj (ro : RoomObj) : RoomObj :=
  { roomId := ro.roomId, name := ro.name, version := ro.version,
    unit := ro.unit, software := ro.software,
    authorVersion := ro.authorVersion,
    room := truthyOpt ro.room, workspace := truthyOpt ro.workspace,
    layersVisible := truthyOpt ro.layersVisible,
    roomSurfaces := truthyOpt ro.roomSurfaces,
    items := ro.items.map (fun tbl =>
      itemCategories.filterMap (fun c =>
        (lookupKey tbl c).bind (fun v =>
          if jsTruthy v then some (c, v) else none))) }

/-- roomDataWrites lists the yRoomData.set calls performSync makes: the
fields of its roomData object literal in insertion order, skipping the
undefined ones. -/
def roomDataWrites (c : RoomObj) : List (String × Json) :=
  ([("roomId", c.roomId), ("name", c.name), ("version", c.version),
    ("unit", c.unit), ("room", c.room), ("software", c.software),
    ("authorVersion", c.authorVersion), ("workspace", c.workspace),
    ("layersVisible", c.layersVisible),
    ("roomSurfaces", c.roomSurfaces)]).filterMap
    (fun p => p.2.map (fun v => (p.1, v)))

/-- observedWrites is the write sequence of one push that lands on observed
maps: the roomData fields, then one yItems.set per category of the copy. -/
def observedWrites (c : RoomObj) : List (String × String × Json) :=
  (roomDataWrites c).map (fun p => ("roomData", p.1, p.2)) ++
  (c.items.getD []).map (fun p => ("items", p.1, p.2))

/-- metaWrites is the trailing pair of yMeta.set stamps of one push. -/
def metaWrites (now : Int) (uid : String) : List (String × String × Json) :=
  [("meta", "lastUpdated", Json.num now),
   ("meta", "lastUpdatedBy", Json.str uid)]

/-- writeStep executes one YMap.set: write the key, then notify that map's
observers with transaction.local = true, collecting any frame they send. -/
def writeStep (wsOpen : Bool) (a : YDocM × List Frame)
    (w : String × String × Json) : YDocM × List Frame :=
  let d2 := docSetInMap a.1 w.1 w.2.1 w.2.2
  (d2, a.2 ++ observerFrames wsOpen w.1 d2 true)

/-- runWrites threads a sequence of YMap.set calls through the document,
collecting the frames the observers emit. -/
def runWrites (wsOpen : Bool) (d : YDocM)
    (ws : List (String × String × Json)) : YDocM × List Frame :=
  ws.foldl (writeStep wsOpen) (d, [])

/-- SyncState models the sync integration module state performSync uses. -/
structure SyncState where
  typesPresent : Bool
  lastSyncedState : Option RoomObj
deriving DecidableEq

/-- SyncResult is the outcome of one debounced push: the new module state,
the new document, the frames sent, and whether the push went through. -/
structure SyncResult where
  st : SyncState
  doc : YDocM
  frames : List Frame
  pushed : Bool
deriving DecidableEq

/-- performSync models the debounced push body: bail out when the shared
types are unavailable; build the syncable copy; compare it against the last
pushed state and skip the push entirely when they are equal (the idempotence
guard — two equal copies serialize to byte-identical JSON strings because the
copy is built with a fixed key insertion order, so comparing the serialized
strings is modeled as comparing the copies); otherwise record the copy, set
every defined roomData field and every item category into the shared maps
(each observed set emits one Update frame when the socket is open), and
finally stamp meta.lastUpdated and meta.lastUpdatedBy (yMeta has no
observers, so the stamps emit nothing).  The isRemoteUpdate flag set around
the writes only suppresses the sync integration callback, not the observer's
sendUpdate, so it does not affect the frames. -/
def performSync (wsOpen : Bool) (now : Int) (uid : String) (st : SyncState)
    (d : YDocM) (ro : RoomObj) : SyncResult :=
  if st.typesPresent = false then ⟨st, d, [], false⟩
  else
    let c := createSyncableRoomObj ro
    if some c = st.lastSyncedState then ⟨st, d, [], false⟩
    else
      let st2 : SyncState := { st with lastSyncedState := some c }
      let r1 := runWrites wsOpen d (observedWrites c)
      let r2 := runWrites wsOpen r1.1 (metaWrites now uid)
      ⟨st2, r2.1, r1.2 ++ r2.2, true⟩

/-- processBurst models a burst of syncRoomObj calls inside one 100 ms
debounce window: each call clears the pending timer and re-arms it with its
own snapshot (when sync is enabled), so when the window elapses only the
last snapshot of the burst reaches performSync, exactly once. -/
def processBurst (syncEnabled wsOpen : Bool) (now : Int) (uid : String)
    (st : SyncState) (d : YDocM) (burst : List RoomObj) : SyncResult :=
  if syncEnabled then
    match burst.getLast? with
    | none => ⟨st, d, [], false⟩
    | some ro => performSync wsOpen now uid st d ro
  else ⟨st, d, [], false⟩

theorem runWrites_meta_frames (wsOpen : Bool) (d : YDocM) (now : Int)
    (uid : String) : (runWrites wsOpen d (metaWrites now uid)).2 = [] := by
  have hm : "meta" ∉ observedMaps := by decide
  simp [runWrites, metaWrites, writeStep, observerFrames, hm]

theorem observedWrites_observed (c : RoomObj) :
    ∀ w ∈ observedWrites c, observedMaps.contains w.1 = true := by
  intro w hw
  rcases List.mem_append.mp hw with h | h
  · rcases List.mem_map.mp h with ⟨p, _, rfl⟩
    show observedMaps.contains "roomData" = true
    decide
  · rcases List.mem_map.mp h with ⟨p, _, rfl⟩
    show observedMaps.contains "items" = true
    decide

theorem runWrites_last_frame_aux (ws : List (String × String × Json)) :
    ∀ (d : YDocM) (fs : List Frame), ws ≠ [] →
      (∀ w ∈ ws, observedMaps.contains w.1 = true) →
      (ws.foldl (writeStep true) (d, fs)).2.getLast? =
        some (Frame.update
          (encodeStateAsUpdate (ws.foldl (writeStep true) (d, fs)).1)) := by
  induction ws with
  | nil => intro d fs hne _; exact absurd rfl hne
  | cons w t ih =>
      intro d fs _ hobs
      rw [List.foldl_cons]
      by_cases ht : t = []
      · subst ht
        simp only [List.foldl_nil]
        have hw : observedMaps.contains w.1 = true :=
          hobs w (List.mem_cons_self _ _)
        have hwmem : w.1 ∈ observedMaps := by simpa using hw
        simp [writeStep, observerFrames, hwmem, List.getLast?_concat]
      · exact ih (writeStep true (d, fs) w).1 (writeStep true (d, fs) w).2
          ht (fun x hx => hobs x (List.mem_cons_of_mem w hx))

theorem runWrites_last_frame (d : YDocM) (ws : List (String × String × Json))
    (hne : ws ≠ []) (hobs : ∀ w ∈ ws, observedMaps.contains w.1 = true) :
    (runWrites true d ws).2.getLast? =
      some (Frame.update (encodeStateAsUpdate (runWrites true d ws).1)) :=
  runWrites_last_frame_aux ws d [] hne hobs

/-- c2BurstFirst is the snapshot of the first sync call of the C2 burst. -/
def c2BurstFirst : RoomObj :=
  ⟨some (Json.str "r"), some (Json.str "old"), none, none, none, none,
    none, none, none, none, none⟩

/-- c2BurstLast is the snapshot of the last sync call of the C2 burst. -/
def c2BurstLast : RoomObj :=
  ⟨some (Json.str "r"), some (Json.str "n"), none, none, none, none,
    none, none, none, none, none⟩

/-- Claim C2, counterexample: a burst of two sync calls, enabled and
connected, whose last snapshot defines two roomData fields, sends two Update
frames — one per yRoomData.set, because the observer fires on every set —
refuting the claim that at most one Update frame is sent per debounce
window. -/
theorem coalescing_cex :
    ¬ ((processBurst true true 0 "u" ⟨true, none⟩ initDoc
      [c2BurstFirst, c2BurstLast]).frames.length ≤ 1) := by decide

/-- Claim C2 as amended: for every burst of N ≥ 1 sync calls within one
debounce window while enabled and connected, only the last snapshot of the
burst reaches performSync, exactly once; when the push is not skipped by the
idempotence guard it goes through (pushed = true), it sends one Update frame
per roomData/items key written — possibly more than one — and the last of
those frames carries the full document state after all the roomData and
items writes of that last snapshot (the meta stamps written afterwards emit
no frame). -/
theorem coalescing_amended (now : Int) (uid : String) (st : SyncState)
    (d : YDocM) (burst : List RoomObj) (ro : RoomObj)
    (hlast : burst.getLast? = some ro) :
    processBurst true true now uid st d burst =
      performSync true now uid st d ro ∧
    (st.typesPresent = true →
      some (createSyncableRoomObj ro) ≠ st.lastSyncedState →
      (performSync true now uid st d ro).pushed = true ∧
      (observedWrites (createSyncableRoomObj ro) ≠ [] →
        (performSync true now uid st d ro).frames.getLast? =
          some (Frame.update (encodeStateAsUpdate
            (runWrites true d
              (observedWrites (createSyncableRoomObj ro))).1)))) := by
  constructor
  · simp [processBurst, hlast]
  · intro htp hne
    have htp2 : ¬ st.typesPresent = false := by simp [htp]
    constructor
    · simp [performSync, htp2, hne]
    · intro hw
      have hmeta := runWrites_meta_frames true
        (runWrites true d (observedWrites (createSyncableRoomObj ro))).1
        now uid
      simp only [performSync, htp2, if_false, hne, reduceIte]
      rw [hmeta, List.append_nil]
      exact runWrites_last_frame d
        (observedWrites (createSyncableRoomObj ro)) hw
        (observedWrites_observed (createSyncableRoomObj ro))

/-- Witness for coalescing_amended at the concrete two-call burst: the burst
is coalesced into one performSync of the last snapshot and that push goes
through. -/
theorem coalescing_amended_witness :
    processBurst true true 0 "u" ⟨true, none⟩ initDoc
        [c2BurstFirst, c2BurstLast] =
      performSync true 0 "u" ⟨true, none⟩ initDoc c2BurstLast ∧
    (performSync true 0 "u" ⟨true, none⟩ initDoc c2BurstLast).pushed =
      true := by
  have h := coalescing_amended 0 "u" ⟨true, none⟩ initDoc
    [c2BurstFirst, c2BurstLast] c2BurstLast (by decide)
  exact ⟨h.1, (h.2 rfl (by decide)).1⟩

/-- Claim C8: the idempotence guard.  When the shared types are available and
the first call's syncable copy differs from the last pushed state, the first
performSync pushes; running performSync again with the same snapshot (even at
a different timestamp) is skipped entirely by the comparison against the last
pushed string: no write to the shared maps, no frame, no state change —
exactly one outbound push for two byte-identical snapshots. -/
theorem idempotence_guard (wsOpen : Bool) (now1 now2 : Int) (uid : String)
    (st : SyncState) (d : YDocM) (ro : RoomObj)
    (htp : st.typesPresent = true)
    (hne : some (createSyncableRoomObj ro) ≠ st.lastSyncedState) :
    (performSync wsOpen now1 uid st d ro).pushed = true ∧
    performSync wsOpen now2 uid (performSync wsOpen now1 uid st d ro).st
        (performSync wsOpen now1 uid st d ro).doc ro =
      ⟨(performSync wsOpen now1 uid st d ro).st,
        (performSync wsOpen now1 uid st d ro).doc, [], false⟩ := by
  have htp2 : ¬ st.typesPresent = false := by simp [htp]
  constructor
  · simp [performSync, htp2, hne]
  · have hst : (performSync wsOpen now1 uid st d ro).st =
        ⟨st.typesPresent, some (createSyncableRoomObj ro)⟩ := by
      simp [performSync, htp2, hne]
    rw [hst]
    simp [performSync, htp]

/-- Witness for idempotence_guard at a concrete state: the first push goes
through and the second identical push is skipped. -/
theorem idempotence_guard_witness :
    ((⟨true, none⟩ : SyncState).typesPresent = true ∧
      some (createSyncableRoomObj c2BurstLast) ≠
        (⟨true, none⟩ : SyncState).lastSyncedState) ∧
    ((performSync true 0 "u" ⟨true, none⟩ initDoc c2BurstLast).pushed =
        true ∧
      performSync true 7 "u"
          (performSync true 0 "u" ⟨true, none⟩ initDoc c2BurstLast).st
          (performSync true 0 "u" ⟨true, none⟩ initDoc c2BurstLast).doc
          c2BurstLast =
        ⟨(performSync true 0 "u" ⟨true, none⟩ initDoc c2BurstLast).st,
          (performSync true 0 "u" ⟨true, none⟩ initDoc c2BurstLast).doc,
          [], false⟩) :=
  ⟨⟨rfl, by decide⟩,
    idempotence_guard true 0 7 "u" ⟨true, none⟩ initDoc c2BurstLast rfl
      (by decide)⟩

theorem foldl_upsert_of_disjoint {α : Type} (es : List (String × α)) :
    ∀ (m : List (String × α)),
      (∀ p ∈ es, hasKey m p.1 = false) → (es.map Prod.fst).Nodup →
      es.foldl (fun acc e => upsert acc e.1 e.2) m = m ++ es := by
  induction es with
  | nil => intro m _ _; simp
  | cons e t ih =>
      intro m hdisj hnd
      rw [List.foldl_cons]
      have he : hasKey m e.1 = false := hdisj e (List.mem_cons_self _ _)
      have hup : upsert m e.1 e.2 = m ++ [e] := by
        simp only [upsert, hasKey] at he ⊢
        rw [if_neg (by simp [he])]
      rw [hup]
      have hnd2 := hnd
      rw [List.map_cons, List.nodup_cons] at hnd2
      have hstep : ∀ p ∈ t, hasKey (m ++ [e]) p.1 = false := by
        intro p hp
        have h1 : hasKey m p.1 = false :=
          hdisj p (List.mem_cons_of_mem e hp)
        have h2 : ¬ e.1 = p.1 := by
          intro hep
          exact hnd2.1 (hep ▸ List.mem_map_of_mem Prod.fst hp)
        simp only [hasKey] at h1
        simp [hasKey, List.any_append, h1, h2]
      have := ih (m ++ [e]) hstep hnd2.2
      rw [this, List.append_assoc]
      rfl

theorem hasKey_append_singleton_self {α : Type} (pre : List (String × α))
    (n : String) (m : α) : hasKey (pre ++ [(n, m)]) n = true := by
  simp [hasKey, List.any_append]

theorem docSetInMap_trailing (pre : List (String × YMapData)) (n : String)
    (m : YMapData) (k : String) (v : Json) (hpre : hasKey pre n = false) :
    docSetInMap ⟨pre ++ [(n, m)]⟩ n k v = ⟨pre ++ [(n, upsert m k v)]⟩ := by
  have hens : docEnsureMap ⟨pre ++ [(n, m)]⟩ n = ⟨pre ++ [(n, m)]⟩ := by
    simp [docEnsureMap, hasKey_append_singleton_self]
  simp only [docSetInMap, hens]
  congr 1
  rw [List.map_append]
  congr 1
  · have hfix : ∀ p ∈ pre,
        (if p.1 == n then (p.1, upsert p.2 k v) else p) = p := by
      intro p hp
      have hne : (p.1 == n) = false := by
        simp only [hasKey, List.any_eq_false, beq_iff_eq] at hpre
        simp [hpre p hp]
      simp [hne]
    calc pre.map (fun p => if p.1 == n then (p.1, upsert p.2 k v) else p)
        = pre.map id := List.map_congr_left hfix
      _ = pre := List.map_id pre
  · simp

theorem entriesOf_obj_toJFields (l : List (String × Json)) :
    entriesOf (Json.obj (toJFields l)) = l := by
  simp [entriesOf, fromJFields_toJFields]

theorem hasKey_append_singleton_ne {α : Type} (pre : List (String × α))
    (n k : String) (m : α) (h : hasKey pre k = false) (hne : ¬ n = k) :
    hasKey (pre ++ [(n, m)]) k = false := by
  simp only [hasKey] at h
  simp [hasKey, List.any_append, h, hne]

theorem applyMapEntries_fst (w l : Bool) (n : String)
    (es : List (String × Json)) :
    ∀ (pre : List (String × YMapData)) (m : YMapData) (fs : List Frame),
      hasKey pre n = false →
      (applyMapEntries w l n es (⟨pre ++ [(n, m)]⟩, fs)).1 =
        ⟨pre ++ [(n, es.foldl (fun acc e => upsert acc e.1 e.2) m)]⟩ := by
  induction es with
  | nil => intro pre m fs _; rfl
  | cons e t ih =>
      intro pre m fs hpre
      show (applyMapEntries w l n t
        (docSetInMap ⟨pre ++ [(n, m)]⟩ n e.1 e.2,
          fs ++ observerFrames w n
            (docSetInMap ⟨pre ++ [(n, m)]⟩ n e.1 e.2) l)).1 =
        ⟨pre ++ [(n, (e :: t).foldl (fun acc e => upsert acc e.1 e.2) m)]⟩
      rw [docSetInMap_trailing pre n m e.1 e.2 hpre, List.foldl_cons]
      exact ih pre (upsert m e.1 e.2) _ hpre

theorem yApplyUpdate_fold (w : Bool) (ms : List (String × YMapData)) :
    ∀ (pre : List (String × YMapData)) (fs : List Frame),
      (∀ p ∈ ms, hasKey pre p.1 = false) →
      (ms.map Prod.fst).Nodup →
      (∀ p ∈ ms, (p.2.map Prod.fst).Nodup) →
      ((ms.map (fun p => (p.1, Json.obj (toJFields p.2)))).foldl
        (fun a me => applyMapEntries w false me.1 (entriesOf me.2)
          (docEnsureMap a.1 me.1, a.2)) (⟨pre⟩, fs)).1 = ⟨pre ++ ms⟩ := by
  induction ms with
  | nil => intro pre fs _ _ _; simp
  | cons hd t ih =>
      intro pre fs hdisj hnd hinner
      rw [List.map_cons, List.foldl_cons]
      have hdn : hasKey pre hd.1 = false := hdisj hd (List.mem_cons_self _ _)
      have hens : docEnsureMap ⟨pre⟩ hd.1 = ⟨pre ++ [(hd.1, [])]⟩ := by
        simp [docEnsureMap, hdn]
      have hkeys : (hd.2.map Prod.fst).Nodup :=
        hinner hd (List.mem_cons_self _ _)
      have hfold : hd.2.foldl (fun acc e => upsert acc e.1 e.2) [] = hd.2 := by
        have h := foldl_upsert_of_disjoint hd.2 []
          (fun p _ => rfl) hkeys
        simpa using h
      have hnd2 := hnd
      rw [List.map_cons, List.nodup_cons] at hnd2
      show ((t.map (fun p => (p.1, Json.obj (toJFields p.2)))).foldl
        (fun a me => applyMapEntries w false me.1 (entriesOf me.2)
          (docEnsureMap a.1 me.1, a.2))
        (applyMapEntries w false hd.1
          (entriesOf (Json.obj (toJFields hd.2)))
          (docEnsureMap ⟨pre⟩ hd.1, fs))).1 = ⟨pre ++ hd :: t⟩
      rw [entriesOf_obj_toJFields, hens]
      have hr1 : (applyMapEntries w false hd.1 hd.2
          (⟨pre ++ [(hd.1, [])]⟩, fs)).1 = ⟨pre ++ [(hd.1, hd.2)]⟩ := by
        rw [applyMapEntries_fst w false hd.1 hd.2 pre [] fs hdn, hfold]
      have hpair : applyMapEntries w false hd.1 hd.2
          (⟨pre ++ [(hd.1, [])]⟩, fs) =
          (⟨pre ++ [(hd.1, hd.2)]⟩,
            (applyMapEntries w false hd.1 hd.2
              (⟨pre ++ [(hd.1, [])]⟩, fs)).2) :=
        Prod.ext hr1 rfl
      rw [hpair]
      have hdisj2 : ∀ p ∈ t, hasKey (pre ++ [(hd.1, hd.2)]) p.1 = false := by
        intro p hp
        refine hasKey_append_singleton_ne pre hd.1 p.1 hd.2
          (hdisj p (List.mem_cons_of_mem hd hp)) ?_
        intro hep
        exact hnd2.1 (hep ▸ List.mem_map_of_mem Prod.fst hp)
      have h := ih (pre ++ [(hd.1, hd.2)])
        ((applyMapEntries w false hd.1 hd.2 (⟨pre ++ [(hd.1, [])]⟩, fs)).2)
        hdisj2 hnd2.2 (fun p hp => hinner p (List.mem_cons_of_mem hd hp))
      simpa [List.append_assoc] using h

/-- Claim C7: snapshot round trip.  For every document whose map-name list
and per-map key lists are duplicate-free (JS objects guarantee unique keys),
applying encodeStateAsUpdate of the document to an empty peer document via
Y.applyUpdate reproduces the document exactly — in particular every map's
contents are deep-equal to the original's.  All values representable in the
Json type are JSON-serializable, and the UTF-8 JSON byte round trip is
exact. -/
theorem snapshot_roundtrip (wsOpen : Bool) (d : YDocM)
    (h1 : (d.maps.map Prod.fst).Nodup)
    (h2 : ∀ m ∈ d.maps, (m.2.map Prod.fst).Nodup) :
    (yApplyUpdate wsOpen ⟨[]⟩ (encodeStateAsUpdate d)).1 = d := by
  unfold yApplyUpdate encodeStateAsUpdate
  rw [entriesOf_obj_toJFields]
  have h := yApplyUpdate_fold wsOpen d.maps [] [] (fun p _ => rfl) h1 h2
  simpa using h

/-- c7Doc is a concrete populated document for the round-trip witness. -/
def c7Doc : YDocM :=
  ⟨[("roomData", [("name", Json.str "Room"), ("unit", Json.str "feet")]),
    ("items",
      [("chairs",
        Json.arr (JList.cons (Json.obj (toJFields [("id", Json.str "c1")]))
          JList.nil))]),
    ("meta", [])]⟩

/-- Witness for snapshot_roundtrip at the concrete document c7Doc. -/
theorem snapshot_roundtrip_witness :
    ((c7Doc.maps.map Prod.fst).Nodup ∧
      ∀ m ∈ c7Doc.maps, (m.2.map Prod.fst).Nodup) ∧
    (yApplyUpdate false ⟨[]⟩ (encodeStateAsUpdate c7Doc)).1 = c7Doc :=
  ⟨⟨by decide, by decide⟩,
    snapshot_roundtrip false c7Doc (by decide) (by decide)⟩

end VRC
